import Mathlib

/-!
Verification of the Azure-Scripts repository (terminal_storage_account.py and
cli_tool_cosmos_db.py) against its natural-language specification.

The interactive scripts are shallowly embedded: the copy-status values that the
Azure service would return on successive polls are modelled as a stream
`Nat → String`, operator answers as `String` arguments, and the cloud-side
calls a workflow issues (start-copy-from-url, delete-blob, delete-item,
set-blob-metadata) as explicit action traces.
-/

namespace AzureScripts

/-- Copy-status poll loop of `wait_for_copy` (terminal_storage_account.py,
lines 28-46).  `st i` is the `props.copy.status` string returned by the
`i`-th call to `get_blob_properties`; `count` is the loop counter, starting
at 0.  The loop returns `true` on status `"success"`, `false` on `"failed"`
or `"aborted"`, `false` once `count > 10`, and otherwise sleeps and polls
again with the counter incremented. -/
def waitLoop (st : Nat → String) (count : Nat) : Bool :=
  if st count = "success" then true
  else if st count = "failed" ∨ st count = "aborted" then false
  else if h : count > 10 then false
  else waitLoop st (count + 1)
termination_by 12 - count
decreasing_by simp_wf; omega

/-- `wait_for_copy` as seen by its caller: the poll loop started with
`count = 0`. -/
def wait_for_copy (st : Nat → String) : Bool := waitLoop st 0

/-- Number of `get_blob_properties` fetches performed by the poll loop of
`wait_for_copy` when started at counter value `count`: one fetch happens at
the top of every iteration, before any of the three exit tests. -/
def waitFetches (st : Nat → String) (count : Nat) : Nat :=
  if st count = "success" then 1
  else if st count = "failed" ∨ st count = "aborted" then 1
  else if h : count > 10 then 1
  else 1 + waitFetches st (count + 1)
termination_by 12 - count
decreasing_by simp_wf; omega

/-- Total number of property fetches of one `wait_for_copy` invocation. -/
def wait_for_copy_fetches (st : Nat → String) : Nat := waitFetches st 0

/-- Python's `str.lower()` as applied to the operator's one-line confirmation
answers: each character is lowercased. -/
def pyLower (s : String) : String := String.mk (s.data.map Char.toLower)

/-- The cloud-side blob-storage calls a workflow can issue.
`startCopy src dst name` is `dest_blob.start_copy_from_url(source_blob.url)`
for blob `name` copied from container `src` to container `dst`;
`deleteBlob c name` is `blob_client.delete_blob()` on blob `name` of
container `c`. -/
inductive Action where
  | startCopy (srcContainer dstContainer blobName : String)
  | deleteBlob (container blobName : String)
deriving DecidableEq, Repr

/-- Whether an action is a start-copy-from-url call. -/
def Action.isCopy : Action → Bool
  | .startCopy _ _ _ => true
  | _ => false

/-- Whether an action is a delete-blob call. -/
def Action.isDelete : Action → Bool
  | .deleteBlob _ _ => true
  | _ => false

/-- `move_specific_blob` (terminal_storage_account.py, lines 103-131) on
source container `src`, destination container `dst` and blob `name`.
`ex` is the value of `source_blob.exists()`; `st` is the stream of copy
statuses the destination blob reports to `wait_for_copy`.  Returns the list
of cloud-side calls issued, in order, paired with `true` exactly when the
workflow reports overall success.  If the source does not exist the
workflow returns at once; otherwise it starts the copy, waits, and deletes
the source only when `wait_for_copy` returned `true`. -/
def move_specific_blob (ex : Bool) (st : Nat → String) (src dst name : String) :
    List Action × Bool :=
  if !ex then ([], false)
  else if wait_for_copy st then
    ([.startCopy src dst name, .deleteBlob src name], true)
  else
    ([.startCopy src dst name], false)

/-- The per-blob loop body of `move_all_blobs` (terminal_storage_account.py,
lines 155-165): start the copy, wait, and delete the original only on
copy-wait success; on failure skip the deletion and continue. -/
def moveAllStep (st : String → Nat → String) (src dst name : String) :
    List Action :=
  if wait_for_copy (st name) then
    [.startCopy src dst name, .deleteBlob src name]
  else
    [.startCopy src dst name]

/-- `move_all_blobs` (terminal_storage_account.py, lines 134-172).
`confirm` is the operator's answer to the are-you-sure prompt: unless its
lowercasing equals `"y"` the operation is cancelled before any cloud call.
`names` is the eagerly built list of blob names of the source container
(`list(source_container_client.list_blobs())`), `st name` the copy-status
stream of blob `name`'s destination.  Returns the calls issued in order. -/
def move_all_blobs (confirm : String) (names : List String)
    (st : String → Nat → String) (src dst : String) : List Action :=
  if pyLower confirm ≠ "y" then []
  else if names.length = 0 then []
  else names.flatMap (moveAllStep st src dst)

/-- Modelled from the spec (§ bulk move): eager enumeration of the source
container followed by the single-object move workflow `move_specific_blob`
— including its source-existence check `ex` — applied to each element
sequentially, concatenating the calls issued. -/
def move_all_blobs_spec (ex : String → Bool) (st : String → Nat → String)
    (src dst : String) (names : List String) : List Action :=
  names.flatMap (fun name => (move_specific_blob (ex name) (st name) src dst name).1)

/-- The cloud-side document-database call `delete_item` can issue
(cli_tool_cosmos_db.py, line 144). -/
inductive CosmosAction where
  | deleteItem (db container itemId partKey : String)
deriving DecidableEq, Repr

/-- `delete_item` (cli_tool_cosmos_db.py, lines 129-149): after the operator
enters database, container, item id and partition key, a confirmation is
requested; unless its lowercasing equals `"y"` the operation is cancelled
and no call is issued, otherwise exactly the one delete call runs. -/
def delete_item (db container itemId partKey confirm : String) :
    List CosmosAction :=
  if pyLower confirm ≠ "y" then []
  else [.deleteItem db container itemId partKey]

/-- One `metadata[key] = value` assignment on the Python dict built by
`set_blob_metadata`, modelled on an ordered association list: an existing
binding of the key is overwritten in place, a new key is appended. -/
def dictInsert (m : List (String × String)) (k v : String) :
    List (String × String) :=
  if m.any (fun p => p.1 = k) then
    m.map (fun p => if p.1 = k then (k, v) else p)
  else
    m ++ [(k, v)]

/-- The metadata dict after the input loop of `set_blob_metadata`
(terminal_storage_account.py, lines 243-249): the operator entered the
key-value `pairs` in order (the loop stops at the first empty key, so every
entered key is nonempty) and each is assigned into the dict. -/
def buildMetadata (pairs : List (String × String)) : List (String × String) :=
  pairs.foldl (fun m p => dictInsert m p.1 p.2) []

/-- `set_blob_metadata` (terminal_storage_account.py, lines 230-267).
`ex` is `blob_client.exists()`, `pairs` the key-value pairs the operator
entered before terminating the input loop, `confirm` the answer to the
overwrite prompt.  Returns `some md` when the service call
`blob_client.set_blob_metadata(metadata=md)` is issued and `none` when the
workflow returns without issuing it (blob missing, empty dict, or
confirmation not given). -/
def set_blob_metadata (ex : Bool) (pairs : List (String × String))
    (confirm : String) : Option (List (String × String)) :=
  if !ex then none
  else
    let metadata := buildMetadata pairs
    if metadata.isEmpty then none
    else if pyLower confirm = "y" then some metadata
    else none

/-- A copy status string the poll loop treats as still-pending: anything
other than the three exact terminal strings. -/
def pendingStatus (s : String) : Prop :=
  s ≠ "success" ∧ s ≠ "failed" ∧ s ≠ "aborted"

theorem waitFetches_le (st : Nat → String) :
    ∀ fuel count, 11 ≤ count + fuel → waitFetches st count ≤ fuel + 1 := by
  intro fuel
  induction fuel with
  | zero =>
    intro count h
    rw [waitFetches]
    split
    · omega
    split
    · omega
    split
    · omega
    · omega
  | succ n ih =>
    intro count h
    rw [waitFetches]
    split
    · omega
    split
    · omega
    split
    · omega
    · have := ih (count + 1) (by omega)
      omega

theorem waitLoop_true_iff (st : Nat → String) :
    ∀ fuel count, count + fuel = 11 →
      (waitLoop st count = true ↔
        ∃ i, count ≤ i ∧ i ≤ 11 ∧ st i = "success" ∧
          ∀ j, count ≤ j → j < i → pendingStatus (st j)) := by
  intro fuel
  induction fuel with
  | zero =>
    intro count hcnt
    rw [waitLoop]
    by_cases hs : st count = "success"
    · rw [if_pos hs]
      constructor
      · intro _
        exact ⟨count, Nat.le_refl _, by omega, hs, fun j hj1 hj2 => by omega⟩
      · intro _; rfl
    · rw [if_neg hs]
      constructor
      · intro h
        exfalso
        by_cases hf : st count = "failed" ∨ st count = "aborted"
        · rw [if_pos hf] at h; exact Bool.false_ne_true h
        · rw [if_neg hf, dif_pos (by omega : count > 10)] at h
          exact Bool.false_ne_true h
      · rintro ⟨i, hci, hi11, hsucc, -⟩
        have : i = count := by omega
        exact absurd (this ▸ hsucc) hs
  | succ n ih =>
    intro count hcnt
    have hc10 : ¬ count > 10 := by omega
    rw [waitLoop]
    by_cases hs : st count = "success"
    · rw [if_pos hs]
      constructor
      · intro _
        exact ⟨count, Nat.le_refl _, by omega, hs, fun j hj1 hj2 => by omega⟩
      · intro _; rfl
    · rw [if_neg hs]
      by_cases hf : st count = "failed" ∨ st count = "aborted"
      · rw [if_pos hf]
        constructor
        · intro h; exact absurd h (by simp)
        · rintro ⟨i, hci, hi11, hsucc, hpend⟩
          rcases Nat.eq_or_lt_of_le hci with h | h
          · exact absurd (h ▸ hsucc) hs
          · have hp := hpend count (Nat.le_refl _) h
            rcases hf with hf | hf
            · exact absurd hf hp.2.1
            · exact absurd hf hp.2.2
      · rw [if_neg hf, dif_neg hc10]
        push_neg at hf
        rw [ih (count + 1) (by omega)]
        constructor
        · rintro ⟨i, hci, hi11, hsucc, hpend⟩
          refine ⟨i, by omega, hi11, hsucc, fun j hj1 hj2 => ?_⟩
          rcases Nat.eq_or_lt_of_le hj1 with h | h
          · exact h ▸ ⟨hs, hf.1, hf.2⟩
          · exact hpend j (by omega) hj2
        · rintro ⟨i, hci, hi11, hsucc, hpend⟩
          rcases Nat.eq_or_lt_of_le hci with h | h
          · exact absurd (h ▸ hsucc) hs
          · exact ⟨i, by omega, hi11, hsucc, fun j hj1 hj2 => hpend j (by omega) hj2⟩

/-- C1 (counterexample): on a status stream that stays `"pending"` forever,
`wait_for_copy` performs 12 fetches of the destination blob's properties
before timing out — not at most 10 as claimed. -/
theorem wait_for_copy_ten_fetch_bound_cex :
    ¬ wait_for_copy_fetches (fun _ => "pending") ≤ 10 := by
  have h : wait_for_copy_fetches (fun _ => "pending") = 12 := by
    simp [wait_for_copy_fetches, waitFetches]
  omega

/-- C1 (amended): for every status stream, `wait_for_copy` terminates with a
boolean and performs at most 12 poll iterations (12 fetches of the
destination blob's properties) before returning; on timeout it returns a
failure result after exactly those at-most-12 fetches. -/
theorem wait_for_copy_fetches_le_twelve (st : Nat → String) :
    wait_for_copy_fetches st ≤ 12 :=
  waitFetches_le st 11 0 (by omega)

/-- C2: `wait_for_copy` returns a success result iff the status stream shows
the exact string `"success"` at some poll iteration `i` within the bound
(`i ≤ 11`), every earlier observed status being neither `"success"` nor
`"failed"` nor `"aborted"` (any such other string is treated as
still-pending); observing `"failed"` or `"aborted"` first, or exhausting the
bound, yields a failure result. -/
theorem wait_for_copy_success_iff (st : Nat → String) :
    wait_for_copy st = true ↔
      ∃ i, i ≤ 11 ∧ st i = "success" ∧ ∀ j, j < i → pendingStatus (st j) := by
  rw [wait_for_copy, waitLoop_true_iff st 11 0 rfl]
  constructor
  · rintro ⟨i, -, hi11, hsucc, hpend⟩
    exact ⟨i, hi11, hsucc, fun j hj => hpend j (Nat.zero_le _) hj⟩
  · rintro ⟨i, hi11, hsucc, hpend⟩
    exact ⟨i, Nat.zero_le _, hi11, hsucc, fun j _ hj => hpend j hj⟩

/-- C3: whenever the copy-and-wait step of `move_specific_blob` reports
failure, the issued trace contains no delete call at all, so the source blob
is left in place. -/
theorem move_specific_blob_failure_no_delete (ex : Bool) (st : Nat → String)
    (src dst name : String) (h : wait_for_copy st = false) :
    ((move_specific_blob ex st src dst name).1.countP Action.isDelete) = 0 := by
  cases ex <;> simp [move_specific_blob, h, Action.isDelete]

theorem move_specific_blob_failure_no_delete_w :
    ((move_specific_blob true (fun _ => "failed") "src" "dst" "blob").1.countP
      Action.isDelete) = 0 :=
  move_specific_blob_failure_no_delete true (fun _ => "failed") "src" "dst" "blob"
    (by simp [wait_for_copy, waitLoop])

/-- C4: whenever the copy-and-wait step of `move_specific_blob` reports
success, the delete calls of the issued trace are exactly one call, and it
targets the source container's blob, never the destination's. -/
theorem move_specific_blob_success_deletes_source_once (st : Nat → String)
    (src dst name : String) (h : wait_for_copy st = true) :
    (move_specific_blob true st src dst name).1.filter Action.isDelete =
      [.deleteBlob src name] := by
  simp [move_specific_blob, h, Action.isDelete]

theorem move_specific_blob_success_deletes_source_once_w :
    (move_specific_blob true (fun _ => "success") "src" "dst" "blob").1.filter
      Action.isDelete = [.deleteBlob "src" "blob"] :=
  move_specific_blob_success_deletes_source_once (fun _ => "success") "src" "dst" "blob"
    (by simp [wait_for_copy, waitLoop])

/-- C5: when the source blob does not exist, `move_specific_blob` returns a
failure immediately, issuing no copy call and no delete call. -/
theorem move_specific_blob_missing_source_no_calls (st : Nat → String)
    (src dst name : String) :
    move_specific_blob false st src dst name = ([], false) := rfl

theorem flatMap_step_countCopy (st : String → Nat → String) (src dst : String) :
    ∀ names : List String,
      (names.flatMap (moveAllStep st src dst)).countP Action.isCopy = names.length := by
  intro names
  induction names with
  | nil => rfl
  | cons n rest ih =>
    rw [List.flatMap_cons, List.countP_append, ih]
    by_cases h : wait_for_copy (st n)
    · simp [moveAllStep, h, Action.isCopy, Action.isDelete, List.countP_cons]
      omega
    · simp [moveAllStep, h, Action.isCopy, List.countP_cons]
      omega

theorem flatMap_step_countDelete (st : String → Nat → String) (src dst : String) :
    ∀ names : List String,
      (names.flatMap (moveAllStep st src dst)).countP Action.isDelete =
        (names.filter fun n => wait_for_copy (st n)).length := by
  intro names
  induction names with
  | nil => rfl
  | cons n rest ih =>
    rw [List.flatMap_cons, List.countP_append, ih]
    by_cases h : wait_for_copy (st n)
    · simp [moveAllStep, h, Action.isCopy, Action.isDelete, List.countP_cons]
      omega
    · simp [moveAllStep, h, Action.isDelete, List.countP_cons]

/-- C6: a confirmed bulk move over the `names` enumerated from the source
container issues exactly one start-copy call per enumerated blob (so
`names.length` copy attempts in total), while the number of delete calls
equals the number of blobs whose copy-and-wait reported success; a per-item
copy failure skips only that item's deletion and the loop continues. -/
theorem move_all_blobs_copy_delete_counts (confirm : String) (names : List String)
    (st : String → Nat → String) (src dst : String)
    (h : pyLower confirm = "y") :
    (move_all_blobs confirm names st src dst).countP Action.isCopy = names.length ∧
    (move_all_blobs confirm names st src dst).countP Action.isDelete =
      (names.filter fun n => wait_for_copy (st n)).length := by
  unfold move_all_blobs
  rw [if_neg (by simp [h])]
  by_cases hn : names.length = 0
  · rw [if_pos hn]
    have hnil : names = [] := List.length_eq_zero.mp hn
    subst hnil
    simp
  · rw [if_neg hn]
    exact ⟨flatMap_step_countCopy st src dst names, flatMap_step_countDelete st src dst names⟩

theorem move_all_blobs_copy_delete_counts_w :
    (move_all_blobs "y" ["a", "b"]
        (fun n _ => if n = "a" then "success" else "failed") "s" "d").countP
      Action.isCopy = ["a", "b"].length ∧
    (move_all_blobs "y" ["a", "b"]
        (fun n _ => if n = "a" then "success" else "failed") "s" "d").countP
      Action.isDelete =
      (["a", "b"].filter fun n =>
        wait_for_copy ((fun n _ => if n = "a" then "success" else "failed") n)).length :=
  move_all_blobs_copy_delete_counts "y" ["a", "b"]
    (fun n _ => if n = "a" then "success" else "failed") "s" "d" (by decide)

/-- C7 (counterexample): the bulk workflow is not equivalent to mapping the
single-object workflow (with its source-existence check) over the
enumeration — for an enumerated blob whose source does not exist the bulk
loop still issues a start-copy call, whereas the composed single-object
workflow issues nothing. -/
theorem move_all_blobs_spec_equiv_cex :
    move_all_blobs "y" ["a"] (fun _ _ => "success") "s" "d" ≠
      move_all_blobs_spec (fun _ => false) (fun _ _ => "success") "s" "d" ["a"] := by
  have hw : wait_for_copy (fun _ => "success") = true := by simp [wait_for_copy, waitLoop]
  have hy : pyLower "y" = "y" := by decide
  simp [move_all_blobs, move_all_blobs_spec, moveAllStep, move_specific_blob, hw, hy]

theorem move_all_eq_spec_aux (ex : String → Bool) (st : String → Nat → String)
    (src dst : String) :
    ∀ names : List String, (∀ n ∈ names, ex n = true) →
      names.flatMap (moveAllStep st src dst) =
        names.flatMap (fun name => (move_specific_blob (ex name) (st name) src dst name).1) := by
  intro names
  induction names with
  | nil => intro _; rfl
  | cons n rest ih =>
    intro hex
    rw [List.flatMap_cons, List.flatMap_cons, ih (fun m hm => hex m (List.mem_cons_of_mem _ hm))]
    have hn : ex n = true := hex n (List.mem_cons_self _ _)
    by_cases h : wait_for_copy (st n)
    · simp [moveAllStep, move_specific_blob, h, hn]
    · simp [moveAllStep, move_specific_blob, h, hn]

/-- C7 (amended): when every enumerated blob's source exists, a confirmed
bulk move issues exactly the calls of the single-object move workflow
applied sequentially to each enumerated blob; the equivalence fails in
general because the bulk loop performs no per-item source-existence check. -/
theorem move_all_blobs_eq_spec_of_sources_exist (confirm : String)
    (names : List String) (ex : String → Bool) (st : String → Nat → String)
    (src dst : String) (hconf : pyLower confirm = "y")
    (hex : ∀ n ∈ names, ex n = true) :
    move_all_blobs confirm names st src dst = move_all_blobs_spec ex st src dst names := by
  unfold move_all_blobs move_all_blobs_spec
  rw [if_neg (by simp [hconf])]
  by_cases hn : names.length = 0
  · rw [if_pos hn]
    have hnil : names = [] := List.length_eq_zero.mp hn
    subst hnil
    rfl
  · rw [if_neg hn]
    exact move_all_eq_spec_aux ex st src dst names hex

theorem move_all_blobs_eq_spec_of_sources_exist_w :
    move_all_blobs "Y" ["a"] (fun _ _ => "aborted") "s" "d" =
      move_all_blobs_spec (fun _ => true) (fun _ _ => "aborted") "s" "d" ["a"] :=
  move_all_blobs_eq_spec_of_sources_exist "Y" ["a"] (fun _ => true)
    (fun _ _ => "aborted") "s" "d" (by decide) (by simp)

/-- C8: unless the operator's answer to the bulk-move confirmation prompt
lowercases to `"y"`, `move_all_blobs` cancels before issuing any cloud-side
call: no copy and no delete is ever issued. -/
theorem move_all_blobs_requires_confirmation (confirm : String)
    (names : List String) (st : String → Nat → String) (src dst : String)
    (h : pyLower confirm ≠ "y") :
    move_all_blobs confirm names st src dst = [] := by
  unfold move_all_blobs
  rw [if_pos h]

theorem move_all_blobs_requires_confirmation_w :
    move_all_blobs "no" ["a"] (fun _ _ => "success") "s" "d" = [] :=
  move_all_blobs_requires_confirmation "no" ["a"] (fun _ _ => "success") "s" "d"
    (by decide)

/-- C9: the document-database `delete_item` workflow issues its delete call
iff the operator's confirmation answer lowercases to `"y"`; any other answer
cancels the operation with no call issued, leaving the item untouched. -/
theorem delete_item_confirmation_iff (db container itemId partKey confirm : String) :
    CosmosAction.deleteItem db container itemId partKey ∈
        delete_item db container itemId partKey confirm ↔
      pyLower confirm = "y" := by
  unfold delete_item
  by_cases h : pyLower confirm = "y"
  · simp [h]
  · simp [h]

/-- C10: `set_blob_metadata` issues no metadata-setting call when the
operator entered zero key-value pairs or answered the overwrite confirmation
with anything whose lowercasing is not `"y"`; the blob's existing metadata is
then left unchanged. -/
theorem set_blob_metadata_no_call (ex : Bool) (pairs : List (String × String))
    (confirm : String) (h : pairs = [] ∨ pyLower confirm ≠ "y") :
    set_blob_metadata ex pairs confirm = none := by
  rcases h with h | h
  · subst h
    cases ex <;> simp [set_blob_metadata, buildMetadata]
  · cases ex <;> simp [set_blob_metadata, h]

theorem set_blob_metadata_no_call_w :
    set_blob_metadata true [("k", "v")] "N" = none :=
  set_blob_metadata_no_call true [("k", "v")] "N" (Or.inr (by decide))

end AzureScripts
